import Mathlib

/-!
Shallow embedding of the `web-crawler-rs` crate (src/lib.rs, src/generators.rs).

External library types (reqwest's `Url`, `StatusCode`, `HeaderValue`, select's
`Document`) are modelled by the observations the crate makes of them:
* a URL is an opaque comparable identifier, modelled as the parsed string;
* a header value is observed only through `to_str` (which fails on
  non-visible-ASCII bytes), so it is modelled by that observation;
* a document is observed only through `find` over its nodes in document order,
  so it is modelled as the flattened list of its element nodes, each carrying
  its tag name, attributes and descendant text.
-/

namespace WebCrawler

/-- A URL, modelled as an opaque comparable identifier (the crate compares
URLs only for equality/hashing between the visited set and the frontier). -/
abbrev Url := String

/-- Modelled from the spec: a URL value exists only in "normalized absolute
form"; parsing a string (reqwest's `str::parse::<Url>()`, used at
src/lib.rs line 72) succeeds exactly when the string is an absolute URL,
i.e. starts with an RFC 3986 scheme (`ALPHA *(ALPHA / DIGIT / "+" / "-" / ".")`
followed by `":"`); a relative reference has no scheme and fails to parse.
The parser itself lives in the external `url` crate, not under src/. -/
def isSchemeChar (c : Char) : Bool :=
  c.isAlphanum || c = '+' || c = '-' || c = '.'

/-- Scans the tail of a candidate scheme: succeeds on reaching `':'` having
seen only scheme characters. -/
def schemeTail : List Char → Bool
  | [] => false
  | c :: cs => if c = ':' then true else isSchemeChar c && schemeTail cs

/-- Modelled from the spec: `Url::parse` accepts exactly absolute URL strings
(leading scheme then `":"`); relative references such as `"about.html"` or
`"/path"` fail. No normalization is modelled: the URL is the accepted string. -/
def Url.parse (s : String) : Option Url :=
  match s.toList with
  | [] => none
  | c :: cs => if c.isAlpha && schemeTail cs then some s else none

/-- Rust's `str::trim`, modelled on the character list: drop whitespace from
both ends (whitespace modelled as ASCII whitespace characters). -/
def strTrim (s : String) : String :=
  ⟨((s.toList.dropWhile Char.isWhitespace).reverse.dropWhile
      Char.isWhitespace).reverse⟩

/-- `reqwest::Error`, opaque: the crate only wraps and reports it. -/
structure ReqError where
  id : Nat
deriving DecidableEq

/-- `reqwest::header::HeaderValue`, modelled by its `to_str` observation:
`toStr = some s` when the bytes are visible ASCII and convert to `s`,
`toStr = none` when `to_str` would return an error. -/
structure HeaderValue where
  toStr : Option String
deriving DecidableEq

/-- An element node of a parsed document: tag name, attributes in order,
and the node's descendant text (select's `Node::text`). -/
structure Node where
  name : String
  attrs : List (String × String)
  text : String
deriving DecidableEq

/-- select's `Node::attr`: the value of the first attribute with this key. -/
def Node.attr (n : Node) (k : String) : Option String :=
  (n.attrs.find? (fun a => a.1 == k)).map (fun a => a.2)

/-- A parsed document, modelled as its element nodes in document order. -/
abbrev Document := List Node

instance {ε α : Type} [DecidableEq ε] [DecidableEq α] :
    DecidableEq (Except ε α) := fun x y =>
  match x, y with
  | .error a, .error b =>
    if h : a = b then .isTrue (by rw [h]) else .isFalse (by simp [h])
  | .ok a, .ok b =>
    if h : a = b then .isTrue (by rw [h]) else .isFalse (by simp [h])
  | .error _, .ok _ => .isFalse (by simp)
  | .ok _, .error _ => .isFalse (by simp)

/-- An HTTP response as observed by `fetch_web_page`: its status code, its
optional Content-Type header and the result of decoding its body to text. -/
structure Response where
  status : Nat
  contentType : Option HeaderValue
  text : Except ReqError String
deriving DecidableEq

/-- `StatusCode::is_success`: 2xx. -/
def statusIsSuccess (s : Nat) : Bool :=
  200 ≤ s && s < 300

/-- `FetchWebPageError` (src/lib.rs lines 24-36). -/
inductive FetchWebPageError where
  | HttpError (e : ReqError)
  | BadHttpStatus (code : Nat)
  | MissingContentType
  | BadContentType (v : HeaderValue)
  | TextDecodeError (e : ReqError)
deriving DecidableEq

/-- `GetWebPageInfoError` (src/lib.rs lines 38-42). -/
inductive GetWebPageInfoError where
  | NoTitle
deriving DecidableEq

/-- `WebPageInfo` (src/lib.rs lines 18-22). -/
structure WebPageInfo where
  title : String
  links : List Url
deriving DecidableEq

/-- `fetch_web_page` (src/lib.rs lines 44-63), parameterized by the network
(`get`, reqwest's `reqwest::get`) and the HTML parser (`parse`, select's
`Document::from`): transport errors become `HttpError`; a non-2xx status
becomes `BadHttpStatus`; a missing Content-Type header becomes
`MissingContentType`; a Content-Type header whose `to_str` is exactly
`Ok("text/html")` becomes `BadContentType` (the inversion the spec flags);
a body decode failure becomes `TextDecodeError`; otherwise the decoded body
is parsed into a document. -/
def fetch_web_page (get : Url → Except ReqError Response)
    (parse : String → Document) (url : Url) :
    Except FetchWebPageError Document :=
  match get url with
  | .error e => .error (.HttpError e)
  | .ok resp =>
    if statusIsSuccess resp.status then
      match resp.contentType with
      | none => .error .MissingContentType
      | some ct =>
        if ct.toStr = some "text/html" then .error (.BadContentType ct)
        else
          match resp.text with
          | .error e => .error (.TextDecodeError e)
          | .ok t => .ok (parse t)
    else .error (.BadHttpStatus resp.status)

/-- `get_web_page_info` (src/lib.rs lines 65-79): the first `title` element's
text, trimmed, and the `href` values of the `a` elements that parse as URLs,
in document order; anchors without `href` or with unparseable `href` are
dropped silently. -/
def get_web_page_info (doc : Document) :
    Except GetWebPageInfoError WebPageInfo :=
  match doc.find? (fun n => n.name == "title") with
  | none => .error .NoTitle
  | some titleNode =>
    let title := strTrim titleNode.text
    let links := (doc.filter (fun n => n.name == "a")).filterMap
      (fun n => (n.attr "href").bind (fun s => Url.parse s))
    .ok { title := title, links := links }

/-- The body of the nested `if let Ok(..)` pair inside the crawl loop
(src/lib.rs lines 93-94): fetching a popped URL and extracting its page info,
with either failure absorbed into `none`. -/
def processUrl (get : Url → Except ReqError Response)
    (parse : String → Document) (u : Url) : Option WebPageInfo :=
  match fetch_web_page get parse u with
  | .error _ => none
  | .ok doc =>
    match get_web_page_info doc with
    | .error _ => none
    | .ok page => some page

/-- The observable outcome of running the crawl generator to completion:
the yielded `(Url, WebPageInfo)` pairs in order, the final visited set, and
the URLs passed to `fetch_web_page` in dequeue order. -/
structure CrawlResult where
  output : List (Url × WebPageInfo)
  visited : List Url
  fetched : List Url
deriving DecidableEq

/-- `HashSet::insert` on the visited set, modelled on a list up to
membership: add the URL unless already present. -/
def insertVisited (visited : List Url) (u : Url) : List Url :=
  if visited.contains u then visited else u :: visited

/-- The `while let Some(url) = urls_to_visit.pop_front()` loop of
`crawl_web_page` (src/lib.rs lines 91-104), run to completion. `fuel` bounds
the number of loop iterations: `none` means the loop did not finish within
`fuel` iterations, `some` is the completed crawl. Each iteration pops the
front of the frontier, marks it visited, fetches and extracts it (recording
the fetch in `fetched`); on success it appends to the back of the frontier
those extracted links not in the visited set, in extractor order, and yields
the pair; on any failure it just moves on. -/
def crawlFuel (get : Url → Except ReqError Response)
    (parse : String → Document) :
    Nat → List Url → List Url → Option CrawlResult
  | _, visited, [] => some { output := [], visited := visited, fetched := [] }
  | 0, _, _ :: _ => none
  | fuel + 1, visited, u :: rest =>
    let visited' := insertVisited visited u
    match processUrl get parse u with
    | none =>
      (crawlFuel get parse fuel visited' rest).map
        (fun r => { r with fetched := u :: r.fetched })
    | some page =>
      let frontier' := rest ++ page.links.filter (fun l => !visited'.contains l)
      (crawlFuel get parse fuel visited' frontier').map
        (fun r => { r with output := (u, page) :: r.output,
                           fetched := u :: r.fetched })

/-- The initial frontier (src/lib.rs lines 86-89): seeded with the URL when
`url.into_url()` succeeded, empty when it failed. -/
def seedFrontier : Option Url → List Url
  | none => []
  | some u => [u]

/-- `crawl_web_page` (src/lib.rs lines 83-106), run to completion with the
given fuel. `seed` is the result of `url.into_url()`: `none` (conversion
failed) leaves the frontier empty, `some u` seeds it with `u`. -/
def crawl_web_page (get : Url → Except ReqError Response)
    (parse : String → Document) (seed : Option Url) (fuel : Nat) :
    Option CrawlResult :=
  crawlFuel get parse fuel [] (seedFrontier seed)

/-! ## The generator / iterator layer (src/generators.rs)

`crawl_web_page` actually returns `GenIter` over a generator whose body is
the loop above, and the consumer pulls elements through `GenIter::next`
(src/generators.rs lines 9-14): `resume` maps `Yielded(item)` to
`Some(item)` and `Complete(_)` to `None`. A rustc generator that has already
returned `Complete` panics with "generator resumed after completion" when
resumed again, and `GenIter::next` performs no fuse check before resuming,
so the post-exhaustion behaviour is a panic. The suspended generator is
modelled by its live state (visited set and frontier at the suspension
point) plus a `finished` flag recording that `Complete` was returned. -/

/-- The state of the crawl generator between two `next` calls. -/
structure CrawlGen where
  visited : List Url
  frontier : List Url
  finished : Bool
deriving DecidableEq

/-- What one `GenIter::next` call is observed to do. -/
inductive NextOutcome where
  | yielded (u : Url) (page : WebPageInfo)
  | exhausted
  | panicked
deriving DecidableEq

/-- Resuming the crawl generator's loop from a suspension point: run
iterations until the next `yield` (returning the yielded pair and the state
at the suspension) or until the frontier empties (the generator returns
`Complete`). `fuel` bounds the iterations; `none` means the resumed call ran
longer than `fuel` without yielding or completing. -/
def resumeCrawl (get : Url → Except ReqError Response)
    (parse : String → Document) :
    Nat → List Url → List Url →
      Option (NextOutcome × List Url × List Url)
  | _, visited, [] => some (.exhausted, visited, [])
  | 0, _, _ :: _ => none
  | fuel + 1, visited, u :: rest =>
    let visited' := insertVisited visited u
    match processUrl get parse u with
    | none => resumeCrawl get parse fuel visited' rest
    | some page =>
      let frontier' := rest ++ page.links.filter (fun l => !visited'.contains l)
      some (.yielded u page, visited', frontier')

/-- `GenIter::next` (src/generators.rs lines 9-14) on the crawl generator:
resuming an already-completed generator panics; otherwise the loop runs to
its next suspension, and completion marks the generator finished. -/
def GenIter.next (get : Url → Except ReqError Response)
    (parse : String → Document) (fuel : Nat) (s : CrawlGen) :
    Option (NextOutcome × CrawlGen) :=
  if s.finished then some (.panicked, s)
  else
    (resumeCrawl get parse fuel s.visited s.frontier).map
      (fun r =>
        match r.1 with
        | .exhausted => (.exhausted, ⟨r.2.1, r.2.2, true⟩)
        | o => (o, ⟨r.2.1, r.2.2, false⟩))

/-- A popped URL contributes nothing exactly when its fetch fails or its
extraction fails: the two `if let Ok` guards of the crawl loop. -/
theorem processUrl_eq_none_iff (get : Url → Except ReqError Response)
    (parse : String → Document) (u : Url) :
    processUrl get parse u = none ↔
      (∃ e, fetch_web_page get parse u = .error e) ∨
      (∃ doc e, fetch_web_page get parse u = .ok doc ∧
        get_web_page_info doc = .error e) := by
  unfold processUrl
  cases hf : fetch_web_page get parse u with
  | error e => simp [hf]
  | ok doc =>
    cases hg : get_web_page_info doc with
    | error e =>
      simp [hf, hg]
      exact ⟨e, trivial⟩
    | ok page => simp [hf, hg]

/-- The links of a successfully extracted page are exactly the parseable
`href` values of the document's anchors, in document order. -/
theorem get_web_page_info_ok_links (doc : Document) (info : WebPageInfo)
    (h : get_web_page_info doc = .ok info) :
    info.links = (doc.filter (fun n => n.name == "a")).filterMap
      (fun n => (n.attr "href").bind (fun s => Url.parse s)) := by
  unfold get_web_page_info at h
  cases hfind : doc.find? (fun n => n.name == "title") with
  | none => rw [hfind] at h; exact absurd h (by simp)
  | some t =>
    rw [hfind] at h
    cases h
    rfl

/-! ## Unfolding equations of the crawl loop -/

theorem crawlFuel_nil (get : Url → Except ReqError Response)
    (parse : String → Document) (fuel : Nat) (visited : List Url) :
    crawlFuel get parse fuel visited [] =
      some { output := [], visited := visited, fetched := [] } := by
  cases fuel <;> rfl

theorem crawlFuel_zero_cons (get : Url → Except ReqError Response)
    (parse : String → Document) (visited : List Url) (u : Url)
    (rest : List Url) :
    crawlFuel get parse 0 visited (u :: rest) = none := rfl

theorem crawlFuel_step_fail (get : Url → Except ReqError Response)
    (parse : String → Document) (fuel : Nat) (visited : List Url) (u : Url)
    (rest : List Url) (h : processUrl get parse u = none) :
    crawlFuel get parse (fuel + 1) visited (u :: rest) =
      (crawlFuel get parse fuel (insertVisited visited u) rest).map
        (fun r => { r with fetched := u :: r.fetched }) := by
  simp only [crawlFuel, h]

theorem crawlFuel_step_ok (get : Url → Except ReqError Response)
    (parse : String → Document) (fuel : Nat) (visited : List Url) (u : Url)
    (rest : List Url) (page : WebPageInfo)
    (h : processUrl get parse u = some page) :
    crawlFuel get parse (fuel + 1) visited (u :: rest) =
      (crawlFuel get parse fuel (insertVisited visited u)
          (rest ++ page.links.filter
            (fun l => !(insertVisited visited u).contains l))).map
        (fun r => { r with output := (u, page) :: r.output,
                           fetched := u :: r.fetched }) := by
  simp only [crawlFuel, h]

/-- More fuel never changes a completed crawl's result. -/
theorem crawlFuel_mono_succ (get : Url → Except ReqError Response)
    (parse : String → Document) :
    ∀ (fuel : Nat) (visited frontier : List Url) (r : CrawlResult),
      crawlFuel get parse fuel visited frontier = some r →
      crawlFuel get parse (fuel + 1) visited frontier = some r := by
  intro fuel
  induction fuel with
  | zero =>
    intro visited frontier r h
    cases frontier with
    | nil => rw [crawlFuel_nil] at h; rw [crawlFuel_nil]; exact h
    | cons u rest => rw [crawlFuel_zero_cons] at h; exact absurd h (by simp)
  | succ fuel ih =>
    intro visited frontier r h
    cases frontier with
    | nil => rw [crawlFuel_nil] at h; rw [crawlFuel_nil]; exact h
    | cons u rest =>
      cases hp : processUrl get parse u with
      | none =>
        rw [crawlFuel_step_fail _ _ _ _ _ _ hp] at h
        rw [crawlFuel_step_fail _ _ _ _ _ _ hp]
        obtain ⟨r', hr', rfl⟩ := Option.map_eq_some'.mp h
        rw [ih _ _ _ hr']
        rfl
      | some page =>
        rw [crawlFuel_step_ok _ _ _ _ _ _ _ hp] at h
        rw [crawlFuel_step_ok _ _ _ _ _ _ _ hp]
        obtain ⟨r', hr', rfl⟩ := Option.map_eq_some'.mp h
        rw [ih _ _ _ hr']
        rfl

/-- More fuel never changes a completed crawl's result (le version). -/
theorem crawlFuel_mono (get : Url → Except ReqError Response)
    (parse : String → Document) (fuel fuel' : Nat)
    (visited frontier : List Url) (r : CrawlResult) (hle : fuel ≤ fuel')
    (h : crawlFuel get parse fuel visited frontier = some r) :
    crawlFuel get parse fuel' visited frontier = some r := by
  induction fuel' with
  | zero => cases Nat.le_zero.mp hle; exact h
  | succ fuel' ih =>
    rcases Nat.lt_or_ge fuel (fuel' + 1) with hlt | hge
    · exact crawlFuel_mono_succ get parse fuel' _ _ _
        (ih (Nat.lt_succ_iff.mp hlt))
    · cases Nat.le_antisymm hle hge; exact h

/-- A completed crawl's output is exactly its fetch log filtered through
`processUrl`: one element per fetched URL whose fetch and extract both
succeed, in fetch order, and nothing else. -/
theorem crawlFuel_output_eq (get : Url → Except ReqError Response)
    (parse : String → Document) :
    ∀ (fuel : Nat) (visited frontier : List Url) (r : CrawlResult),
      crawlFuel get parse fuel visited frontier = some r →
      r.output = r.fetched.filterMap
        (fun u => (processUrl get parse u).map (fun p => (u, p))) := by
  intro fuel
  induction fuel with
  | zero =>
    intro visited frontier r h
    cases frontier with
    | nil =>
      rw [crawlFuel_nil] at h
      cases h
      rfl
    | cons u rest => rw [crawlFuel_zero_cons] at h; exact absurd h (by simp)
  | succ fuel ih =>
    intro visited frontier r h
    cases frontier with
    | nil =>
      rw [crawlFuel_nil] at h
      cases h
      rfl
    | cons u rest =>
      cases hp : processUrl get parse u with
      | none =>
        rw [crawlFuel_step_fail _ _ _ _ _ _ hp] at h
        obtain ⟨r', hr', rfl⟩ := Option.map_eq_some'.mp h
        simpa [List.filterMap_cons, hp] using ih _ _ _ hr'
      | some page =>
        rw [crawlFuel_step_ok _ _ _ _ _ _ _ hp] at h
        obtain ⟨r', hr', rfl⟩ := Option.map_eq_some'.mp h
        simpa [List.filterMap_cons, hp] using ih _ _ _ hr'

/-- The crawl generator's state as first returned by `crawl_web_page`,
before any `next` call: empty visited set, the frontier seeded exactly when
the seed converted to a URL, generator not yet completed. -/
def initGen (seed : Option Url) : CrawlGen :=
  { visited := [], frontier := seedFrontier seed, finished := false }

theorem resumeCrawl_nil (get : Url → Except ReqError Response)
    (parse : String → Document) (fuel : Nat) (visited : List Url) :
    resumeCrawl get parse fuel visited [] = some (.exhausted, visited, []) := by
  cases fuel <;> rfl

theorem resumeCrawl_zero_cons (get : Url → Except ReqError Response)
    (parse : String → Document) (visited : List Url) (u : Url)
    (rest : List Url) :
    resumeCrawl get parse 0 visited (u :: rest) = none := rfl

theorem resumeCrawl_step_fail (get : Url → Except ReqError Response)
    (parse : String → Document) (fuel : Nat) (visited : List Url) (u : Url)
    (rest : List Url) (h : processUrl get parse u = none) :
    resumeCrawl get parse (fuel + 1) visited (u :: rest) =
      resumeCrawl get parse fuel (insertVisited visited u) rest := by
  simp only [resumeCrawl, h]

theorem resumeCrawl_step_ok (get : Url → Except ReqError Response)
    (parse : String → Document) (fuel : Nat) (visited : List Url) (u : Url)
    (rest : List Url) (page : WebPageInfo)
    (h : processUrl get parse u = some page) :
    resumeCrawl get parse (fuel + 1) visited (u :: rest) =
      some (.yielded u page, insertVisited visited u,
        rest ++ page.links.filter
          (fun l => !(insertVisited visited u).contains l)) := by
  simp only [resumeCrawl, h]

/-- The generator completes only by the `while let` guard failing: a
`Complete` return leaves an empty frontier behind. -/
theorem resumeCrawl_exhausted_frontier (get : Url → Except ReqError Response)
    (parse : String → Document) :
    ∀ (fuel : Nat) (visited frontier visited' frontier' : List Url),
      resumeCrawl get parse fuel visited frontier =
        some (.exhausted, visited', frontier') →
      frontier' = [] := by
  intro fuel
  induction fuel with
  | zero =>
    intro visited frontier visited' frontier' h
    cases frontier with
    | nil => rw [resumeCrawl_nil] at h; cases h; rfl
    | cons u rest => rw [resumeCrawl_zero_cons] at h; exact absurd h (by simp)
  | succ fuel ih =>
    intro visited frontier visited' frontier' h
    cases frontier with
    | nil => rw [resumeCrawl_nil] at h; cases h; rfl
    | cons u rest =>
      cases hp : processUrl get parse u with
      | none =>
        rw [resumeCrawl_step_fail _ _ _ _ _ _ hp] at h
        exact ih _ _ _ _ h
      | some page =>
        rw [resumeCrawl_step_ok _ _ _ _ _ _ _ hp] at h
        exact absurd h (by simp)

/-! ## Termination of the crawl loop on ranked (acyclic) page graphs -/

/-- A page graph is ranked when some measure strictly decreases along every
link of every successfully processed page, with link counts bounded by `L`.
A finite acyclic reachable page graph always admits such a rank. -/
def RankedWorld (get : Url → Except ReqError Response)
    (parse : String → Document) (rank : Url → Nat) (L : Nat) : Prop :=
  ∀ u page, processUrl get parse u = some page →
    page.links.length ≤ L ∧ ∀ l ∈ page.links, rank l < rank u

/-- The termination potential of a frontier: each entry weighs
`(L+1) ^ its rank`. -/
def potential (rank : Url → Nat) (L : Nat) (frontier : List Url) : Nat :=
  (frontier.map (fun u => (L + 1) ^ rank u)).sum

theorem potential_nil (rank : Url → Nat) (L : Nat) :
    potential rank L [] = 0 := rfl

theorem potential_cons (rank : Url → Nat) (L : Nat) (u : Url)
    (rest : List Url) :
    potential rank L (u :: rest) = (L + 1) ^ rank u + potential rank L rest := by
  simp [potential]

theorem potential_append (rank : Url → Nat) (L : Nat) (a b : List Url) :
    potential rank L (a ++ b) = potential rank L a + potential rank L b := by
  simp [potential]

/-- Each crawl step strictly decreases the frontier's potential: the popped
entry's weight strictly exceeds the combined weight of the links it can
enqueue. -/
theorem potential_step_lt (rank : Url → Nat) (L : Nat) (u : Url)
    (links : List Url) (p : Url → Bool)
    (hlen : links.length ≤ L) (hrk : ∀ l ∈ links, rank l < rank u) :
    potential rank L (links.filter p) + 1 ≤ (L + 1) ^ rank u := by
  cases hru : rank u with
  | zero =>
    have : links = [] := by
      cases links with
      | nil => rfl
      | cons l ls => exact absurd (hrk l (by simp)) (by rw [hru]; omega)
    simp [this, potential]
  | succ k =>
    have hmem : ∀ x ∈ (links.filter p).map (fun l => (L + 1) ^ rank l),
        x ≤ (L + 1) ^ k := by
      intro x hx
      obtain ⟨l, hl, rfl⟩ := List.mem_map.mp hx
      have : rank l < k + 1 := hru ▸ hrk l (List.mem_of_mem_filter hl)
      exact Nat.pow_le_pow_right (by omega) (by omega)
    have hsum := List.sum_le_card_nsmul _ _ hmem
    have hlen' : (links.filter p).length ≤ L :=
      le_trans (List.length_filter_le _ _) hlen
    have hone : 1 ≤ (L + 1) ^ k := Nat.one_le_pow _ _ (by omega)
    have : potential rank L (links.filter p) ≤ L * (L + 1) ^ k := by
      calc potential rank L (links.filter p)
          ≤ ((links.filter p).map (fun l => (L + 1) ^ rank l)).length
              • (L + 1) ^ k := hsum
        _ = (links.filter p).length * (L + 1) ^ k := by
            rw [List.length_map, smul_eq_mul]
        _ ≤ L * (L + 1) ^ k := Nat.mul_le_mul_right _ hlen'
    have hpow : (L + 1) ^ (k + 1) = L * (L + 1) ^ k + (L + 1) ^ k := by ring
    omega

/-- On a ranked page graph, the crawl loop completes once given fuel above
the frontier's potential: duplicate frontier entries and repeated processing
only cost bounded extra steps. -/
theorem crawlFuel_terminates (get : Url → Except ReqError Response)
    (parse : String → Document) (rank : Url → Nat) (L : Nat)
    (hw : RankedWorld get parse rank L) :
    ∀ (fuel : Nat) (visited frontier : List Url),
      potential rank L frontier < fuel →
      ∃ r, crawlFuel get parse fuel visited frontier = some r := by
  intro fuel
  induction fuel with
  | zero => intro visited frontier h; omega
  | succ fuel ih =>
    intro visited frontier hlt
    cases frontier with
    | nil => exact ⟨_, crawlFuel_nil get parse _ visited⟩
    | cons u rest =>
      rw [potential_cons] at hlt
      have hone : 1 ≤ (L + 1) ^ rank u := Nat.one_le_pow _ _ (by omega)
      cases hp : processUrl get parse u with
      | none =>
        obtain ⟨r, hr⟩ := ih (insertVisited visited u) rest (by omega)
        exact ⟨_, by rw [crawlFuel_step_fail _ _ _ _ _ _ hp, hr]; rfl⟩
      | some page =>
        obtain ⟨hlen, hrk⟩ := hw u page hp
        have hstep := potential_step_lt rank L u page.links
          (fun l => !(insertVisited visited u).contains l) hlen hrk
        obtain ⟨r, hr⟩ := ih (insertVisited visited u)
          (rest ++ page.links.filter
            (fun l => !(insertVisited visited u).contains l))
          (by rw [potential_append]; omega)
        exact ⟨_, by rw [crawlFuel_step_ok _ _ _ _ _ _ _ hp, hr]; rfl⟩

/-! ## Concrete page graphs used for witnesses and counterexamples -/

/-- Seed URL of the two-page test graph. -/
def urlA : Url := "http://a/"

/-- The URL page A links to, twice. -/
def urlB : Url := "http://b/"

/-- Body text of page A. -/
def bodyA : String := "docA"

/-- Body text of page B. -/
def bodyB : String := "docB"

/-- Response for page A: success status, a non-`text/html` content type
(the content-type check rejects exactly `"text/html"`), decodable body. -/
def respA : Response :=
  { status := 200,
    contentType := some { toStr := some "application/xhtml+xml" },
    text := .ok bodyA }

/-- Response for page B, like `respA`. -/
def respB : Response :=
  { status := 200,
    contentType := some { toStr := some "application/xhtml+xml" },
    text := .ok bodyB }

/-- The network of the test graph: page A and page B respond, everything
else fails at transport level. -/
def getW : Url → Except ReqError Response := fun u =>
  if u = urlA then .ok respA
  else if u = urlB then .ok respB
  else .error { id := 0 }

/-- The HTML parser on the test bodies: page A has a title and two anchors
to the same URL `urlB`; page B has a title and no anchors. -/
def parseW : String → Document := fun s =>
  if s = bodyA then
    [ { name := "title", attrs := [], text := "Page A" },
      { name := "a", attrs := [("href", urlB)], text := "" },
      { name := "a", attrs := [("href", urlB)], text := "" } ]
  else if s = bodyB then
    [ { name := "title", attrs := [], text := "Page B" } ]
  else []

/-- Page info of page A in the test graph. -/
def pageA : WebPageInfo := { title := "Page A", links := [urlB, urlB] }

/-- Page info of page B in the test graph. -/
def pageB : WebPageInfo := { title := "Page B", links := [] }

/-- What the test graph's fetch-then-extract pipeline does on every URL. -/
theorem processUrlW (u : Url) :
    processUrl getW parseW u =
      if u = urlA then some pageA
      else if u = urlB then some pageB
      else none := by
  by_cases h1 : u = urlA
  · subst h1; rw [if_pos rfl]; decide
  · by_cases h2 : u = urlB
    · subst h2; rw [if_neg (by decide), if_pos rfl]; decide
    · rw [if_neg h1, if_neg h2]
      have hg : getW u = .error { id := 0 } := by simp [getW, h1, h2]
      simp [processUrl, fetch_web_page, hg]

/-- A rank witnessing that the test graph is acyclic: page A above page B. -/
def rankW : Url → Nat := fun u => if u = urlA then 1 else 0

/-- The test graph is ranked with link counts bounded by 2. -/
theorem rankedW : RankedWorld getW parseW rankW 2 := by
  intro u page h
  rw [processUrlW] at h
  by_cases h1 : u = urlA
  · rw [if_pos h1] at h
    cases h
    subst h1
    exact ⟨by decide, by decide⟩
  · by_cases h2 : u = urlB
    · rw [if_neg h1, if_pos h2] at h
      cases h
      subst h2
      exact ⟨by decide, by decide⟩
    · rw [if_neg h1, if_neg h2] at h
      exact absurd h (by simp)

/-- The completed crawl of the test graph: page B is dequeued, fetched and
yielded twice, because its two frontier entries were both enqueued while it
was still unvisited. -/
def resultW : CrawlResult :=
  { output := [(urlA, pageA), (urlB, pageB), (urlB, pageB)],
    visited := [urlB, urlA],
    fetched := [urlA, urlB, urlB] }

/-- A document with just a title element carrying padded text. -/
def docT : Document :=
  [ { name := "title", attrs := [], text := "  Page T " } ]

/-- A document whose anchors carry a parseable href (twice, the same URL),
no href at all, and an unparseable href. -/
def docX : Document :=
  [ { name := "title", attrs := [], text := "T" },
    { name := "a", attrs := [("href", "http://x/")], text := "" },
    { name := "a", attrs := [], text := "" },
    { name := "a", attrs := [("href", "not a url")], text := "" },
    { name := "a", attrs := [("href", "http://x/")], text := "" } ]

/-- What the extractor produces on `docX`: the duplicate parseable href is
kept twice, the other anchors are dropped silently. -/
def infoX : WebPageInfo :=
  { title := "T", links := ["http://x/", "http://x/"] }

/-- A document whose anchors carry two relative hrefs and one absolute one. -/
def docRel : Document :=
  [ { name := "title", attrs := [], text := "R" },
    { name := "a", attrs := [("href", "about.html")], text := "" },
    { name := "a", attrs := [("href", "/path")], text := "" },
    { name := "a", attrs := [("href", "http://x/")], text := "" } ]

/-- What the extractor produces on `docRel`: only the absolute href. -/
def infoRel : WebPageInfo :=
  { title := "R", links := ["http://x/"] }

example : crawl_web_page getW parseW (some urlA) 10 = some resultW := by decide
example : get_web_page_info docX = .ok infoX := by decide
example : get_web_page_info docRel = .ok infoRel := by decide

/-! ## Claims -/

/-- C1: the claimed invariant — no URL is dequeued for processing (fetched)
more than once, and each URL appears at most once in the yielded sequence —
fails on the code: the visited check happens only at enqueue time, so in
the concrete graph where page A links to page B twice, B enters the
frontier twice while unvisited and is then dequeued, fetched and yielded
twice. This theorem evaluates the crawl at that failing input. -/
theorem C1_duplicate_processing_eval :
    crawl_web_page getW parseW (some urlA) 10 = some resultW ∧
    resultW.fetched = [urlA, urlB, urlB] ∧
    ¬ resultW.fetched.Nodup ∧
    resultW.output.map Prod.fst = [urlA, urlB, urlB] ∧
    ¬ (resultW.output.map Prod.fst).Nodup :=
  ⟨by decide, by decide, by decide, by decide, by decide⟩

/-- C2: for a success-status response carrying a Content-Type header, the
fetch returns `BadContentType` exactly when the header value converts to
the string `"text/html"`; any other convertible value passes the policy
check and fetching proceeds to body decoding. -/
theorem C2_content_type_policy (get : Url → Except ReqError Response)
    (parse : String → Document) (url : Url) (resp : Response)
    (ct : HeaderValue) (hget : get url = .ok resp)
    (hst : statusIsSuccess resp.status = true)
    (hct : resp.contentType = some ct) :
    (fetch_web_page get parse url = .error (.BadContentType ct) ↔
      ct.toStr = some "text/html") ∧
    (∀ s, ct.toStr = some s → s ≠ "text/html" →
      fetch_web_page get parse url =
        match resp.text with
        | .error e => .error (.TextDecodeError e)
        | .ok t => .ok (parse t)) := by
  have hfe : fetch_web_page get parse url =
      if ct.toStr = some "text/html" then .error (.BadContentType ct)
      else
        match resp.text with
        | .error e => .error (.TextDecodeError e)
        | .ok t => .ok (parse t) := by
    unfold fetch_web_page
    simp only [hget, hst, hct, if_true]
  constructor
  · constructor
    · intro h
      by_contra hne
      rw [hfe, if_neg hne] at h
      cases htext : resp.text with
      | error e => rw [htext] at h; simp at h
      | ok t => rw [htext] at h; simp at h
    · intro h
      rw [hfe, if_pos h]
  · intro s hs hne
    have hnot : ¬ ct.toStr = some "text/html" := by
      rw [hs]
      simp [hne]
    rw [hfe, if_neg hnot]

/-- Witness for C2, on the test graph's page A response (content type
`application/xhtml+xml`). -/
theorem C2_content_type_policy_witness :
    (fetch_web_page getW parseW urlA =
        .error (.BadContentType { toStr := some "application/xhtml+xml" }) ↔
      ({ toStr := some "application/xhtml+xml" } : HeaderValue).toStr =
        some "text/html") ∧
    (∀ s, ({ toStr := some "application/xhtml+xml" } : HeaderValue).toStr =
        some s → s ≠ "text/html" →
      fetch_web_page getW parseW urlA =
        match respA.text with
        | .error e => .error (.TextDecodeError e)
        | .ok t => .ok (parseW t)) :=
  C2_content_type_policy getW parseW urlA respA
    { toStr := some "application/xhtml+xml" }
    (by decide) (by decide) (by decide)

/-- C3: the claim that requests past exhaustion keep reporting exhaustion
and never panic fails on the code: `GenIter::next` resumes the generator
without any fuse check, and a generator that already returned `Complete`
panics when resumed. Concretely, with an unparseable seed the first `next`
reports exhaustion and the second `next` panics instead of reporting
exhaustion again. -/
theorem C3_counterexample_panic_after_exhaustion :
    GenIter.next getW parseW 1 (initGen none) =
      some (.exhausted, { visited := [], frontier := [], finished := true }) ∧
    GenIter.next getW parseW 1
        { visited := [], frontier := [], finished := true } =
      some (.panicked, { visited := [], frontier := [], finished := true }) ∧
    NextOutcome.panicked ≠ NextOutcome.exhausted :=
  ⟨by decide, by decide, by decide⟩

/-- C3 (amended): once `next` reports exhaustion, the generator is
finished with an empty frontier, and every further `next` panics (resuming
a completed generator) — it never yields a value, never reports anything
but the panic, and never changes the engine state. -/
theorem C3_exhaustion_then_panic (get : Url → Except ReqError Response)
    (parse : String → Document) (fuel : Nat) (s s' : CrawlGen)
    (h : GenIter.next get parse fuel s = some (.exhausted, s')) :
    s'.finished = true ∧ s'.frontier = [] ∧
    ∀ fuel', GenIter.next get parse fuel' s' = some (.panicked, s') := by
  unfold GenIter.next at h
  by_cases hf : s.finished
  · rw [if_pos hf] at h
    simp at h
  · rw [if_neg hf] at h
    obtain ⟨⟨o, v, f⟩, hr, heq⟩ := Option.map_eq_some'.mp h
    cases o with
    | yielded u page => simp at heq
    | panicked => simp at heq
    | exhausted =>
      rw [Prod.mk.injEq] at heq
      obtain ⟨-, rfl⟩ := heq
      have hnil : f = [] :=
        resumeCrawl_exhausted_frontier get parse fuel _ _ _ _ hr
      subst hnil
      refine ⟨rfl, rfl, ?_⟩
      intro fuel'
      simp [GenIter.next]

/-- Witness for the amended C3, on the empty-seed crawl. -/
theorem C3_exhaustion_then_panic_witness :
    ({ visited := [], frontier := [], finished := true } : CrawlGen).finished
        = true ∧
    ({ visited := [], frontier := [], finished := true } : CrawlGen).frontier
        = [] ∧
    ∀ fuel', GenIter.next getW parseW fuel'
        { visited := [], frontier := [], finished := true } =
      some (.panicked, { visited := [], frontier := [], finished := true }) :=
  C3_exhaustion_then_panic getW parseW 1 (initGen none)
    { visited := [], frontier := [], finished := true } (by decide)

/-- C4: the exact-count half of the claim fails on the code: the two-page
graph is acyclic (ranked) and both pages fetch and extract successfully, so
the claim predicts exactly 2 elements, but the crawl terminates with 3
elements — page B, discovered twice before its first dequeue, is yielded
twice. -/
theorem C4_count_counterexample :
    RankedWorld getW parseW rankW 2 ∧
    crawl_web_page getW parseW (some urlA) 10 = some resultW ∧
    crawl_web_page getW parseW (some urlA) 100 = some resultW ∧
    resultW.output.length = 3 ∧
    resultW.output.map Prod.fst = [urlA, urlB, urlB] ∧
    urlA ≠ urlB :=
  ⟨rankedW, by decide, by decide, by decide, by decide, by decide⟩

/-- C4 (amended): on every ranked (acyclic) page graph with bounded link
counts, the crawl terminates — some fuel completes the loop, and any larger
fuel gives the same completed result — and it yields exactly one element
per dequeued (fetched) URL whose fetch and extract succeed, in dequeue
order; this count can exceed the number of distinct reachable successful
pages when a URL is enqueued more than once before its first dequeue. -/
theorem C4_terminates_on_ranked_graphs (get : Url → Except ReqError Response)
    (parse : String → Document) (rank : Url → Nat) (L : Nat)
    (hw : RankedWorld get parse rank L) (seed : Option Url) :
    ∃ fuel, ∀ fuel', fuel ≤ fuel' →
      ∃ r, crawl_web_page get parse seed fuel' = some r ∧
        r.output = r.fetched.filterMap
          (fun u => (processUrl get parse u).map (fun p => (u, p))) := by
  obtain ⟨r, hr⟩ := crawlFuel_terminates get parse rank L hw
    (potential rank L (seedFrontier seed) + 1) [] (seedFrontier seed)
    (by omega)
  refine ⟨potential rank L (seedFrontier seed) + 1, fun fuel' hle => ?_⟩
  refine ⟨r, ?_, crawlFuel_output_eq get parse _ _ _ _ hr⟩
  exact crawlFuel_mono get parse _ fuel' _ _ _ hle hr

/-- Witness for the amended C4, on the ranked two-page test graph. -/
theorem C4_terminates_witness :
    ∃ fuel, ∀ fuel', fuel ≤ fuel' →
      ∃ r, crawl_web_page getW parseW (some urlA) fuel' = some r ∧
        r.output = r.fetched.filterMap
          (fun u => (processUrl getW parseW u).map (fun p => (u, p))) :=
  C4_terminates_on_ranked_graphs getW parseW rankW 2 rankedW (some urlA)

/-- C5: a dequeued URL whose fetch or extraction fails is marked visited,
yields nothing, and the loop continues with the remaining frontier
unchanged; every element of any completed crawl's output comes from a URL
whose fetch and extract both succeeded (no error value ever appears); and
the generator completes only with an empty frontier. -/
theorem C5_failures_absorbed (get : Url → Except ReqError Response)
    (parse : String → Document) (u : Url) (fuel : Nat)
    (visited rest : List Url)
    (hfail : (∃ e, fetch_web_page get parse u = .error e) ∨
      (∃ doc e, fetch_web_page get parse u = .ok doc ∧
        get_web_page_info doc = .error e)) :
    crawlFuel get parse (fuel + 1) visited (u :: rest) =
      (crawlFuel get parse fuel (insertVisited visited u) rest).map
        (fun r => { r with fetched := u :: r.fetched }) ∧
    (∀ fuel' v fr r, crawlFuel get parse fuel' v fr = some r →
      ∀ p ∈ r.output, processUrl get parse p.1 = some p.2) ∧
    (∀ fuel' v fr o, resumeCrawl get parse fuel' v fr = some o →
      o.1 = .exhausted → o.2.2 = []) := by
  refine ⟨crawlFuel_step_fail _ _ _ _ _ _
    ((processUrl_eq_none_iff get parse u).mpr hfail), ?_, ?_⟩
  · intro fuel' v fr r hr p hp
    rw [crawlFuel_output_eq get parse fuel' v fr r hr] at hp
    obtain ⟨x, hx, hmap⟩ := List.mem_filterMap.mp hp
    obtain ⟨pg, hpg, rfl⟩ := Option.map_eq_some'.mp hmap
    exact hpg
  · intro fuel' v fr o ho h1
    obtain ⟨o1, v', f'⟩ := o
    cases h1
    exact resumeCrawl_exhausted_frontier get parse fuel' v fr v' f' ho

/-- Witness for C5, on a URL with no response in the test graph. -/
theorem C5_failures_absorbed_witness :
    crawlFuel getW parseW 1 [] ["http://c/"] =
      (crawlFuel getW parseW 0 (insertVisited [] "http://c/") []).map
        (fun r => { r with fetched := "http://c/" :: r.fetched }) ∧
    (∀ fuel' v fr r, crawlFuel getW parseW fuel' v fr = some r →
      ∀ p ∈ r.output, processUrl getW parseW p.1 = some p.2) ∧
    (∀ fuel' v fr o, resumeCrawl getW parseW fuel' v fr = some o →
      o.1 = .exhausted → o.2.2 = []) :=
  C5_failures_absorbed getW parseW "http://c/" 0 [] []
    (.inl ⟨.HttpError { id := 0 }, by decide⟩)

/-- C6: the frontier is a strict FIFO queue: each iteration pops the front
`u`; on success, the loop continues with the queue obtained by appending to
the back of the remaining queue exactly the page's links that are not in
the visited set (which at that point already contains `u`), in extractor
order — no check against entries already queued but not yet visited. -/
theorem C6_fifo_enqueue (get : Url → Except ReqError Response)
    (parse : String → Document) (fuel : Nat) (visited : List Url) (u : Url)
    (rest : List Url) (page : WebPageInfo)
    (h : processUrl get parse u = some page) :
    crawlFuel get parse (fuel + 1) visited (u :: rest) =
      (crawlFuel get parse fuel (insertVisited visited u)
          (rest ++ page.links.filter
            (fun l => !(insertVisited visited u).contains l))).map
        (fun r => { r with output := (u, page) :: r.output,
                           fetched := u :: r.fetched }) ∧
    ∀ l, (insertVisited visited u).contains l =
      (visited.contains l || l == u) := by
  refine ⟨crawlFuel_step_ok _ _ _ _ _ _ _ h, ?_⟩
  intro l
  unfold insertVisited
  by_cases hu : visited.contains u = true
  · rw [if_pos hu]
    by_cases hl : l = u
    · subst hl
      rw [hu]
      simp
    · simp [hl]
  · rw [if_neg hu]
    rw [List.contains_cons, Bool.or_comm]

/-- Witness for C6, on the seed step of the test graph. -/
theorem C6_fifo_enqueue_witness :
    crawlFuel getW parseW 1 [] [urlA] =
      (crawlFuel getW parseW 0 (insertVisited [] urlA)
          ([] ++ pageA.links.filter
            (fun l => !(insertVisited [] urlA).contains l))).map
        (fun r => { r with output := (urlA, pageA) :: r.output,
                           fetched := urlA :: r.fetched }) ∧
    ∀ l, (insertVisited [] urlA).contains l =
      (List.contains [] l || l == urlA) :=
  C6_fifo_enqueue getW parseW 0 [] urlA [] pageA (by decide)

/-- C7: when the seed fails to convert to a URL, the crawl completes at
once with an empty output sequence, an empty visited set and no fetch
attempts, for any fuel, with no error surfaced. -/
theorem C7_unparseable_seed (get : Url → Except ReqError Response)
    (parse : String → Document) (fuel : Nat) :
    crawl_web_page get parse none fuel =
      some { output := [], visited := [], fetched := [] } :=
  crawlFuel_nil get parse fuel []

/-- C8: the extractor fails with `NoTitle` exactly when the document has no
title element; when one exists (the first, in document order), the
extraction succeeds and the returned title is that element's text with
surrounding whitespace trimmed. -/
theorem C8_title_extraction (doc : Document) :
    (get_web_page_info doc = .error .NoTitle ↔
      ∀ n ∈ doc, n.name ≠ "title") ∧
    (∀ t, doc.find? (fun n => n.name == "title") = some t →
      ∃ info, get_web_page_info doc = .ok info ∧
        info.title = strTrim t.text) := by
  constructor
  · cases hfind : doc.find? (fun n => n.name == "title") with
    | none =>
      constructor
      · intro _ n hn
        simpa using List.find?_eq_none.mp hfind n hn
      · intro _
        unfold get_web_page_info
        rw [hfind]
    | some t =>
      constructor
      · intro h
        unfold get_web_page_info at h
        rw [hfind] at h
        simp at h
      · intro hall
        exact absurd (by simpa using List.find?_some hfind)
          (hall t (List.mem_of_find?_eq_some hfind))
  · intro t ht
    unfold get_web_page_info
    rw [ht]
    exact ⟨_, rfl, rfl⟩

/-- Witness for C8, on a document whose only title has padded text. -/
theorem C8_title_extraction_witness :
    ∃ info, get_web_page_info docT = .ok info ∧
      info.title = strTrim "  Page T " :=
  (C8_title_extraction docT).2
    { name := "title", attrs := [], text := "  Page T " } (by decide)

/-- C9: the links of a successfully extracted page are exactly the href
values of the document's anchor elements that parse as URLs, in document
order; anchors with a missing or unparseable href contribute nothing and no
error, and the extractor performs no deduplication. -/
theorem C9_links_extraction (doc : Document) (info : WebPageInfo)
    (h : get_web_page_info doc = .ok info) :
    info.links = (doc.filter (fun n => n.name == "a")).filterMap
      (fun n => (n.attr "href").bind (fun s => Url.parse s)) :=
  get_web_page_info_ok_links doc info h

/-- Witness for C9: on `docX` the duplicate parseable href is kept twice
and the anchors without href or with an unparseable href are dropped. -/
theorem C9_links_extraction_witness :
    (infoX.links = (docX.filter (fun n => n.name == "a")).filterMap
      (fun n => (n.attr "href").bind (fun s => Url.parse s))) ∧
    infoX.links = ["http://x/", "http://x/"] :=
  ⟨C9_links_extraction docX infoX (by decide), by decide⟩

/-- C10 (implicit in src/lib.rs lines 70-73): every link of a successfully
extracted page is the verbatim href string of one of the document's
anchors — never resolved against the page's own URL, which the extractor
does not even receive — and that string is an absolute URL (it starts with
a scheme); hrefs that are relative references are silently dropped. -/
theorem C10_absolute_hrefs_only (doc : Document) (info : WebPageInfo)
    (h : get_web_page_info doc = .ok info) :
    ∀ l ∈ info.links,
      (∃ c cs, l.toList = c :: cs ∧ c.isAlpha = true ∧
        schemeTail cs = true) ∧
      ∃ n ∈ doc, n.name = "a" ∧ n.attr "href" = some l := by
  intro l hl
  rw [get_web_page_info_ok_links doc info h] at hl
  obtain ⟨n, hn, hmap⟩ := List.mem_filterMap.mp hl
  obtain ⟨s, hs, hparse⟩ := Option.bind_eq_some.mp hmap
  unfold Url.parse at hparse
  cases hsl : s.toList with
  | nil => rw [hsl] at hparse; simp at hparse
  | cons c cs =>
    rw [hsl] at hparse
    have hparse' :
        (if (c.isAlpha && schemeTail cs) = true then some s else none) =
          some l := hparse
    by_cases hcond : (c.isAlpha && schemeTail cs) = true
    · rw [if_pos hcond] at hparse'
      obtain rfl := (Option.some.injEq _ _).mp hparse'
      obtain ⟨h1, h2⟩ : c.isAlpha = true ∧ schemeTail cs = true := by
        simpa using hcond
      refine ⟨⟨c, cs, hsl, h1, h2⟩, n, List.mem_of_mem_filter hn, ?_, hs⟩
      simpa using (List.mem_filter.mp hn).2
    · rw [if_neg hcond] at hparse'
      exact absurd hparse' (by simp)

/-- Witness for C10, on the document with two relative hrefs and one
absolute one: only the absolute href survives. -/
theorem C10_absolute_hrefs_only_witness :
    (∀ l ∈ infoRel.links,
      (∃ c cs, l.toList = c :: cs ∧ c.isAlpha = true ∧
        schemeTail cs = true) ∧
      ∃ n ∈ docRel, n.name = "a" ∧ n.attr "href" = some l) ∧
    get_web_page_info docRel = .ok infoRel ∧
    infoRel.links = ["http://x/"] :=
  ⟨C10_absolute_hrefs_only docRel infoRel (by decide), by decide, by decide⟩

end WebCrawler
